import Mathlib

/-!
Shallow embedding of the bigdataball-data pipeline.

The repository has three cores: the incremental ingestion/deduplication
engine (`daily_fantasy_log_upload.py`, `daily_player_upload.py`), the
aggregation engine (`create_summary_tables.py`,
`create_fantasy_averages_table`), and the fuzzy name-resolution step
(`export_slate_averages_csv.py` / `export_slate_averages_vw.py`).

Conventions of the embedding:
* pandas/numpy float64 columns become `ℚ`; a float column that may hold
  `NaN` (the conditional starter / trailing-window columns built with
  `np.where(cond, v, np.nan)`) becomes `Option ℚ`, with `none` for `NaN`.
* calendar dates in the aggregation become `Int` day numbers;
  `pd.Timestamp.now().normalize()` becomes an explicit `today : Int`
  parameter.
* the floating square root inside pandas' sample standard deviation is
  abstracted as a parameter `sq : ℚ → ℚ`; no claim below constrains the
  value of a standard deviation on two or more points, only its `NaN`
  (absence) behaviour, which is independent of `sq`.
* `pd.to_datetime` on the raw ingestion date strings is abstracted as a
  parameter `parseDate : String → Option String`; `none` models the
  exception raised on a malformed date value.
-/

namespace BigDataBall

/-- Round a rational to the nearest integer, halves to even — the rounding
convention of numpy/pandas `round`. -/
def roundHalfEven (q : ℚ) : ℤ :=
  let f : ℤ := ⌊q⌋
  let r : ℚ := q - (f : ℚ)
  if r < 1/2 then f
  else if 1/2 < r then f + 1
  else if f % 2 = 0 then f else f + 1

/-- `round` to `d` decimal places, halves to even (pandas `DataFrame.round`). -/
def roundDec (d : ℕ) (q : ℚ) : ℚ :=
  (roundHalfEven (q * (10 : ℚ) ^ d) : ℚ) / (10 : ℚ) ^ d

/-- The `(a / b).replace([np.inf, -np.inf], 0).fillna(0)` idiom of
`create_summary_tables.py`: a division whose undefined / infinite results
collapse to `0`. -/
def ratioOrZero (a b : ℚ) : ℚ :=
  if b = 0 then 0 else a / b

/-- Substring test, the embedding of `Series.str.contains` with a literal
alternative (each branch of the `|` pattern is a plain substring here). -/
def containsSub (s pat : String) : Bool :=
  decide (pat.toList <:+: s.toList)

/-- Leftmost run of four consecutive digits, the embedding of
`Series.str.extract(r"(\d{4})")`.  Returns `none` when the text holds no
four consecutive digits (pandas yields `NaN` there). -/
def firstFourDigits : List Char → Option String
  | [] => none
  | c :: cs =>
    if (c :: cs.take 3).length = 4 && (c :: cs.take 3).all Char.isDigit then
      some (String.mk (c :: cs.take 3))
    else
      firstFourDigits cs

/-- First four-digit year token of a season-segment text. -/
def firstYearToken (s : String) : Option String :=
  firstFourDigits s.toList

/-- Last two characters of the decimal representation sliced as
`str(y).slice(2, 4)` does for a four-digit year (`create_summary_tables.py`
line 123 builds the end year as `(start_year + 1).astype(str).str.slice(2, 4)`). -/
def sliceTwoFour (s : String) : String :=
  (s.drop 2).take 2

/-- Value of a digit string.  Embedding of `pd.to_numeric(..., errors="coerce")`
applied to the extracted year token: the token is all digits, so coercion
succeeds exactly when a token exists; `none` is the `NaN` of a failed parse. -/
def parseNatDigits (s : String) : Option ℕ :=
  if s.toList ≠ [] ∧ s.toList.all Char.isDigit then
    some (s.toList.foldl (fun a c => 10 * a + (c.toNat - 48)) 0)
  else
    none

/-- Season classification of one `SEASON_SEGMENT` text
(`create_summary_tables.py` lines 91–135): `np.select` labels the row
`Regular` when the text contains `Regular Season` or
`In-Season Tournament` (checked first), else `Playoffs` when it contains
`Playoffs` or `Play-In`, else no label; the season key is built from the
first four-digit year token (`YYYY-YY` for regular season, the token
itself for playoffs).  `none` models a row that `dropna(subset=
["SEASON_TYPE", "SEASON_KEY"])` removes. -/
def classifySeason (seg : String) : Option (String × String) :=
  if containsSub seg "Regular Season" || containsSub seg "In-Season Tournament" then
    match firstYearToken seg with
    | none => none
    | some tok =>
      match parseNatDigits tok with
      | none => none
      | some y => some ("Regular", tok ++ "-" ++ sliceTwoFour (toString (y + 1)))
  else if containsSub seg "Playoffs" || containsSub seg "Play-In" then
    match firstYearToken seg with
    | none => none
    | some tok => some ("Playoffs", tok)
  else
    none

/-! ### Aggregation engine (`create_summary_tables.py`, `create_fantasy_averages_table`)

The raw record store (`fantasy_logs`), the registry (`dim_players`) and the
team mapping (`map_teams`) are the three inputs; the summary table
(`fantasy_averages`) is the output, written with `if_exists="replace"`. -/

/-- One row of the `fantasy_logs` table as the aggregation reads it.
`date` is a day number (the embedding of `pd.to_datetime(df["DATE"])`),
`started` is the raw `"Y"`/`"N"` flag text. -/
structure LogRow where
  playerId : ℤ
  date : ℤ
  team : String
  seasonSegment : String
  started : String
  minutes : ℚ
  dkPoints : ℚ
  dkSalary : ℚ
  usg : ℚ
deriving DecidableEq, Repr

/-- One row of the persisted `fantasy_averages` table, after rounding and
the integer casts of `create_summary_tables.py` lines 242–266.  All numeric
fields are total values: the final `fillna(0)` guarantees the stored table
holds no `NaN`. -/
structure SummaryRow where
  seasonType : String
  playerId : ℤ
  player : String
  season : String
  team : String
  gp : ℕ
  gs : ℕ
  salpg : ℤ
  fppg : ℚ
  stdvFppg : ℚ
  mpg : ℚ
  stdvMpg : ℚ
  fppm : ℚ
  stdvFppm : ℚ
  usgMean : ℚ
  gsfppg : ℚ
  stdvGsfppg : ℚ
  gsmpg : ℚ
  stdvGsmpg : ℚ
  gsfppm : ℚ
  stdvGsfppm : ℚ
  l30fppm : ℚ
deriving DecidableEq, Repr

/-- A left-merge cell: the list of values a key matches, or the single
`NaN` cell pandas produces when nothing matches (`pd.merge(..., how="left")`). -/
def mergeVals {β : Type} (hits : List β) : List (Option β) :=
  if hits.isEmpty then [none] else hits.map some

/-- The join results of one raw row: one output row per pair of a
`dim_players` match (by `PLAYER_ID`) and a `map_teams` match (by `TEAM`),
with `none` (`NaN`) for an unmatched side. -/
def joinOne (players : List (ℤ × String)) (teams : List (String × String))
    (r : LogRow) : List (LogRow × Option String × Option String) :=
  (mergeVals ((players.filter (fun p => p.1 == r.playerId)).map (fun p => p.2))).flatMap fun nm =>
    (mergeVals ((teams.filter (fun t => t.1 == r.team)).map (fun t => t.2))).map fun ab =>
      (r, nm, ab)

/-- The two left joins of `create_summary_tables.py` lines 72–87: first to
`dim_players` on `PLAYER_ID` for the canonical name, then to `map_teams` on
`TEAM` for the abbreviation; a row is repeated once per pair of matches and
an unmatched key yields a `none` (`NaN`) cell. -/
def joinedRows (players : List (ℤ × String)) (teams : List (String × String))
    (logs : List LogRow) : List (LogRow × Option String × Option String) :=
  logs.flatMap (joinOne players teams)

/-- A joined raw row that survived `dropna(subset=["SEASON_TYPE", "SEASON_KEY"])`:
it carries its (possibly `NaN`) join results and its season labels. -/
structure XRow where
  row : LogRow
  name : Option String
  abbr : Option String
  stype : String
  skey : String
deriving DecidableEq, Repr

/-- Attach the season labels to one joined row, or drop it. -/
def classifyX (x : LogRow × Option String × Option String) : Option XRow :=
  match classifySeason x.1.seasonSegment with
  | none => none
  | some (t, k) => some ⟨x.1, x.2.1, x.2.2, t, k⟩

/-- Joined rows with season classification; rows whose segment classifies to
nothing are dropped here (the `dropna` of line 135). -/
def classifiedRows (players : List (ℤ × String)) (teams : List (String × String))
    (logs : List LogRow) : List XRow :=
  (joinedRows players teams logs).filterMap classifyX

/-- A `groupby` key: `(SEASON_TYPE, PLAYER_ID, PLAYER, SEASON_KEY,
TEAM_ABBREVIATION)`. -/
structure GKey where
  stype : String
  playerId : ℤ
  player : String
  skey : String
  team : String
deriving DecidableEq, Repr

/-- The group key of a row, or `none` when a key column is `NaN` — pandas
`groupby` silently drops such rows (its default `dropna=True`). -/
def keyOf (x : XRow) : Option GKey :=
  match x.name, x.abbr with
  | some nm, some ab => some ⟨x.stype, x.row.playerId, nm, x.skey, ab⟩
  | _, _ => none

/-- The distinct group keys of a row set (one summary row per key).  pandas
sorts the keys; the order is irrelevant to every property below, so the
embedding keeps a plain `dedup`. -/
def groupKeys (xs : List XRow) : List GKey :=
  (xs.filterMap keyOf).dedup

/-- The rows of one group. -/
def groupRows (xs : List XRow) (k : GKey) : List XRow :=
  xs.filter fun x => keyOf x == some k

/-- `Series.mean` of a fully populated column. -/
def listMean (l : List ℚ) : ℚ :=
  if l.length = 0 then 0 else l.sum / l.length

/-- The present (non-`NaN`) values of a conditional column. -/
def optionVals (l : List (Option ℚ)) : List ℚ :=
  l.filterMap id

/-- `Series.mean` of a conditional column: `NaN` (`none`) when no value is
present, since pandas skips `NaN`s. -/
def optionMean (l : List (Option ℚ)) : Option ℚ :=
  if (optionVals l).length = 0 then none else some (listMean (optionVals l))

/-- `Series.sum` of a conditional column: pandas skips `NaN`s and sums an
all-`NaN` column to `0`. -/
def optionSum (l : List (Option ℚ)) : ℚ :=
  (optionVals l).sum

/-- The sample variance (`n - 1` denominator) of a value list. -/
def sampleVar (l : List ℚ) : ℚ :=
  (l.map fun x => (x - listMean l) ^ 2).sum / ((l.length : ℚ) - 1)

/-- `Series.std`: sample standard deviation, `NaN` (`none`) on fewer than two
values.  The numeric square root is abstracted as `sq`. -/
def sampleStd (sq : ℚ → ℚ) (l : List ℚ) : Option ℚ :=
  if l.length ≤ 1 then none else some (sq (sampleVar l))

/-- `Series.std` of a conditional column (skips `NaN`s first). -/
def optionStd (sq : ℚ → ℚ) (l : List (Option ℚ)) : Option ℚ :=
  sampleStd sq (optionVals l)

/-- `round` to `d` decimals followed by the final `fillna(0)` of line 259:
a `NaN` aggregate is stored as `0`. -/
def fillnaRound (d : ℕ) : Option ℚ → ℚ
  | none => 0
  | some q => roundDec d q

/-- Per-game `GAME_FPPM` (line 148): points per minute with infinities and
`NaN` from a zero denominator replaced by `0`. -/
def gameFppm (r : LogRow) : ℚ :=
  ratioOrZero r.dkPoints r.minutes

/-- The conditional starter points column `GS_DK_POINTS` of one row. -/
def gsPointsOf (x : XRow) : Option ℚ :=
  if x.row.started == "Y" then some x.row.dkPoints else none

/-- The conditional starter minutes column `GS_MINUTES` of one row. -/
def gsMinutesOf (x : XRow) : Option ℚ :=
  if x.row.started == "Y" then some x.row.minutes else none

/-- The conditional starter rate column `GS_GAME_FPPM` of one row. -/
def gsFppmOf (x : XRow) : Option ℚ :=
  if x.row.started == "Y" then some (gameFppm x.row) else none

/-- Membership in the trailing window: `DATE >= now().normalize() - 30 days`
(line 140), with the processing date an explicit `today`. -/
def inWindow (today : ℤ) (x : XRow) : Bool :=
  today - 30 ≤ x.row.date

/-- The conditional column `L30_DK_POINTS` of one row. -/
def l30PointsOf (today : ℤ) (x : XRow) : Option ℚ :=
  if inWindow today x then some x.row.dkPoints else none

/-- The conditional column `L30_MINUTES` of one row. -/
def l30MinutesOf (today : ℤ) (x : XRow) : Option ℚ :=
  if inWindow today x then some x.row.minutes else none

/-- One summary row from one group (`create_summary_tables.py` lines
157–266): the per-column aggregates, the post-aggregation weighted rates
`FPPM`/`GSFPPM`/`L30FPPM` as summed-numerator over summed-denominator, the
per-field rounding, the final `fillna(0)`, and the integer casts. -/
def mkSummaryRow (sq : ℚ → ℚ) (today : ℤ) (k : GKey) (g : List XRow) : SummaryRow :=
  let pts := g.map fun x => x.row.dkPoints
  let mins := g.map fun x => x.row.minutes
  let fppms := g.map fun x => gameFppm x.row
  let gsPts := g.map gsPointsOf
  let gsMins := g.map gsMinutesOf
  let gsFppms := g.map gsFppmOf
  let l30Pts := g.map (l30PointsOf today)
  let l30Mins := g.map (l30MinutesOf today)
  { seasonType := k.stype
    playerId := k.playerId
    player := k.player
    season := k.skey
    team := k.team
    gp := g.length
    gs := (g.filter fun x => x.row.started == "Y").length
    salpg := roundHalfEven (listMean (g.map fun x => x.row.dkSalary))
    fppg := roundDec 2 (listMean pts)
    stdvFppg := fillnaRound 2 (sampleStd sq pts)
    mpg := roundDec 1 (listMean mins)
    stdvMpg := fillnaRound 2 (sampleStd sq mins)
    fppm := roundDec 2 (ratioOrZero pts.sum mins.sum)
    stdvFppm := fillnaRound 2 (sampleStd sq fppms)
    usgMean := roundDec 1 (listMean (g.map fun x => x.row.usg))
    gsfppg := fillnaRound 2 (optionMean gsPts)
    stdvGsfppg := fillnaRound 2 (optionStd sq gsPts)
    gsmpg := fillnaRound 1 (optionMean gsMins)
    stdvGsmpg := fillnaRound 2 (optionStd sq gsMins)
    gsfppm := roundDec 2 (ratioOrZero (optionSum gsPts) (optionSum gsMins))
    stdvGsfppm := fillnaRound 2 (optionStd sq gsFppms)
    l30fppm := roundDec 2 (ratioOrZero (optionSum l30Pts) (optionSum l30Mins)) }

/-- The whole of `create_fantasy_averages_table`: join, classify, group and
aggregate.  `sq` abstracts the floating square root inside `Series.std`;
`today` is `pd.Timestamp.now().normalize()` as a day number. -/
def createFantasyAverages (sq : ℚ → ℚ) (today : ℤ) (logs : List LogRow)
    (teams : List (String × String)) (players : List (ℤ × String)) : List SummaryRow :=
  let xs := classifiedRows players teams logs
  (groupKeys xs).map fun k => mkSummaryRow sq today k (groupRows xs k)

/-- The persistence step `final_df.to_sql(..., if_exists="replace")` (line
291): whatever the prior contents of `fantasy_averages`, the table afterwards
holds exactly the freshly computed rows. -/
def writeSummaryTable (sq : ℚ → ℚ) (today : ℤ) (_prior : List SummaryRow)
    (logs : List LogRow) (teams : List (String × String))
    (players : List (ℤ × String)) : List SummaryRow :=
  createFantasyAverages sq today logs teams players

/-! ### Ingestion / deduplication engine
(`daily_fantasy_log_upload.py` and `daily_player_upload.py`, `main`)

Both scripts share the loop shape: pre-load the distinct
`(PLAYER_ID, DATE)` pairs of the store once, then for each `.xlsx` file in
lexicographic name order parse, normalize, filter by dedup key, insert
unseen players into `dim_players`, append retained rows to the log table,
and archive the file; any exception stops the run with the current file
unarchived.

One consequential detail of the source is kept exactly: inside the loop
the filter set is rebuilt per file as
`existing_log_keys = set(existing_logs_df["log_key"])` from the dataframe
pre-loaded before the loop, which is never updated; the
`existing_log_keys.update(newly_added_keys)` at the end of an iteration
mutates a local that the next iteration immediately rebuilds, so each file
is filtered against the run-start keys only. -/

/-- One spreadsheet row as read from a source file: identifier, display
name, and the raw date text (`pd.read_excel` output before
`pd.to_datetime`). -/
structure SrcRow where
  playerId : ℤ
  player : String
  dateRaw : String
deriving DecidableEq, Repr

/-- One source file: its name (the archive relocation target and the sort
key) and its parsed rows. -/
structure IngFile where
  name : String
  rows : List SrcRow
deriving DecidableEq, Repr

/-- One stored row of the log table, with the date already normalized to
`"%Y-%m-%d"` text. -/
structure StoredRow where
  playerId : ℤ
  player : String
  date : String
deriving DecidableEq, Repr

/-- The durable state the ingestion run mutates: the log table and the
`dim_players` registry. -/
structure IngState where
  logs : List StoredRow
  players : List (ℤ × String)
deriving DecidableEq, Repr

/-- `log_key`: `str(PLAYER_ID) + "_" + DATE`. -/
def logKey (pid : ℤ) (d : String) : String :=
  toString pid ++ "_" ++ d

/-- The dedup key of a stored row. -/
def keyOfStored (r : StoredRow) : String :=
  logKey r.playerId r.date

/-- The keys pre-loaded at the start of a run from
`SELECT DISTINCT "PLAYER_ID", "DATE"`. -/
def storeKeys (logs : List StoredRow) : List String :=
  (logs.map keyOfStored).dedup

/-- `drop_duplicates(subset=["PLAYER_ID"])`: keep the first row per
identifier. -/
def dedupFirstById : List StoredRow → List StoredRow
  | [] => []
  | r :: rs => r :: dedupFirstById (rs.filter fun s => s.playerId ≠ r.playerId)
termination_by l => l.length
decreasing_by
  simpa using Nat.lt_succ_of_le (List.length_filter_le _ rs)

/-- Normalization of one file's rows: `pd.to_datetime(...).strftime("%Y-%m-%d")`
over the date column, abstracted as `parseDate`.  A single malformed value
raises, so the whole file yields `none`. -/
def parseRows (parseDate : String → Option String) : List SrcRow → Option (List StoredRow)
  | [] => some []
  | r :: rs =>
    match parseDate r.dateRaw, parseRows parseDate rs with
    | some d, some tl => some (⟨r.playerId, r.player, d⟩ :: tl)
    | _, _ => none

/-- The retained rows of a file (`truly_new_logs_df`): rows whose dedup
key is not in `startKeys` — the per-iteration
`set(existing_logs_df["log_key"])`, the run-start keys (see the section
comment). -/
def retainedOf (startKeys : List String) (cleaned : List StoredRow) : List StoredRow :=
  cleaned.filter fun r => !(startKeys.contains (keyOfStored r))

/-- The registry rows a file inserts (`truly_new_players_df_for_dim`): the
retained rows de-duplicated by identifier, minus identifiers already
registered, as `(PLAYER_ID, PLAYER_NAME)` pairs. -/
def toInsertOf (existing : List (ℤ × String)) (retained : List StoredRow) :
    List (ℤ × String) :=
  ((dedupFirstById retained).filter fun r =>
      !((existing.map fun p => p.1).contains r.playerId)).map
    fun r => (r.playerId, r.player)

/-- One file's processing, steps 1–7 of the loop body: parse and normalize
(failure anywhere fails the file), filter by dedup key against the
run-start keys, then insert unseen players and append retained rows.  The
registry is consulted fresh from the current state (`pd.read_sql` inside
the loop), so players inserted by earlier files of the run are seen. -/
def processFile (parseDate : String → Option String) (startKeys : List String)
    (st : IngState) (f : IngFile) : Except String IngState :=
  match parseRows parseDate f.rows with
  | none => .error f.name
  | some cleaned =>
    if (retainedOf startKeys cleaned).isEmpty then
      .ok st
    else
      .ok { logs := st.logs ++ retainedOf startKeys cleaned
            players := st.players ++ toInsertOf st.players (retainedOf startKeys cleaned) }

/-- The file loop: process in order, archive each fully processed file,
stop at the first failure leaving that file and all later ones untouched
(`break` in the source).  Returns the final state, the archived file names
in processing order, and the failing file's name if any. -/
def runFiles (parseDate : String → Option String) (startKeys : List String) :
    IngState → List IngFile → IngState × List String × Option String
  | st, [] => (st, [], none)
  | st, f :: fs =>
    match processFile parseDate startKeys st f with
    | .error e => (st, [], some e)
    | .ok st' =>
      let rest := runFiles parseDate startKeys st' fs
      (rest.1, f.name :: rest.2.1, rest.2.2)

/-- Lexicographic comparison of character lists by code point — the string
order Python's `sorted` uses. -/
def charListLe : List Char → List Char → Bool
  | [], _ => true
  | _ :: _, [] => false
  | a :: as, b :: bs =>
    if a.toNat < b.toNat then true
    else if b.toNat < a.toNat then false
    else charListLe as bs

/-- File-name order. -/
def nameLe (a b : String) : Bool :=
  charListLe a.toList b.toList

/-- Insertion sort on file names — `sorted(glob.glob(...))`. -/
def insertSorted (f : IngFile) : List IngFile → List IngFile
  | [] => [f]
  | g :: gs => if nameLe f.name g.name then f :: g :: gs else g :: insertSorted f gs

/-- `sorted(...)`: lexicographic order of file names. -/
def sortFiles : List IngFile → List IngFile
  | [] => []
  | f :: fs => insertSorted f (sortFiles fs)

/-- A whole ingestion run (`main`): pre-load the store's dedup keys once,
sort the batch by file name, and run the loop. -/
def runIngestion (parseDate : String → Option String) (st : IngState)
    (files : List IngFile) : IngState × List String × Option String :=
  runFiles parseDate (storeKeys st.logs) st (sortFiles files)

/-- Sequential application of the per-file step along a list on which every
file succeeds — the state after a successfully processed prefix. -/
def applyFiles (parseDate : String → Option String) (startKeys : List String) :
    IngState → List IngFile → IngState
  | st, [] => st
  | st, f :: fs =>
    match processFile parseDate startKeys st f with
    | .error _ => st
    | .ok st' => applyFiles parseDate startKeys st' fs

/-! ### Fuzzy name resolution
(`export_slate_averages_csv.py` lines 74–93 and
`export_slate_averages_vw.py` lines 64–74)

`thefuzz.process.extractOne` scans the reference list and keeps the
candidate with the highest similarity score (first wins on ties, as
Python's `max` does); its scorer is a deterministic function
`String → String → ℕ` into `0..100`, abstracted here as a parameter.  A
match is kept when its score reaches the fixed threshold `90`; the matched
names are then de-duplicated with `list(set(...))`. -/

/-- The scan inside `extractOne`: fold the candidate list keeping the
best-so-far, replacing only on a strictly greater score. -/
def extractBest (scorer : String → String → ℕ) (q : String) :
    String × ℕ → List String → String × ℕ
  | best, [] => best
  | best, c :: cs =>
    extractBest scorer q (if best.2 < scorer q c then (c, scorer q c) else best) cs

/-- `process.extractOne(query, choices)`: the best-scoring choice, `none`
on an empty choice list. -/
def extractOne (scorer : String → String → ℕ) (q : String) :
    List String → Option (String × ℕ)
  | [] => none
  | c :: cs => some (extractBest scorer q (c, scorer q c) cs)

/-- The acceptance threshold of both export scripts. -/
def fuzzThreshold : ℕ := 90

/-- The matching loop plus `list(set(...))`: every external name is scored
against the reference list, matches at or above the threshold are kept,
sub-threshold names are dropped silently, and the kept names are
de-duplicated. -/
def fuzzyResolve (scorer : String → String → ℕ) (dkNames refNames : List String) :
    List String :=
  (dkNames.filterMap fun n =>
    match extractOne scorer n refNames with
    | none => none
    | some (m, s) => if fuzzThreshold ≤ s then some m else none).dedup

/-! ### Concrete instances the development evaluates on -/

/-- Modelled from the spec: the naive/incorrect aggregate formula the spec
rules out — the plain average of the per-game per-minute rates, which
over-weights low-minute games.  Compared against the source's weighted
formula, never used by it. -/
def specNaiveMeanRate (g : List XRow) : ℚ :=
  listMean (g.map fun x => gameFppm x.row)

/-- A concrete two-game group with varying minutes: one point in one
minute, then zero points in nine minutes. -/
def exGroupRates : List XRow :=
  [⟨⟨1, 0, "T", "2023-24 Regular Season", "N", 1, 1, 0, 0⟩,
      some "A", some "T", "Regular", "2023-24"⟩,
   ⟨⟨1, 1, "T", "2023-24 Regular Season", "N", 9, 0, 0, 0⟩,
      some "A", some "T", "Regular", "2023-24"⟩]

/-- The group key of `exGroupRates`. -/
def exKeyRates : GKey := ⟨"Regular", 1, "A", "2023-24", "T"⟩

/-- A concrete one-row raw store whose single record joins to player
`Alice` and team `LAL` and classifies as 2023-24 regular season. -/
def wLog : LogRow := ⟨1, 0, "Lakers", "2023-24 Regular Season", "Y", 10, 30, 5000, 20⟩

/-- Team mapping for the witness store. -/
def wTeams : List (String × String) := [("Lakers", "LAL")]

/-- Registry for the witness store. -/
def wPlayers : List (ℤ × String) := [(1, "Alice")]

/-- The single group key of the witness store. -/
def wKey : GKey := ⟨"Regular", 1, "Alice", "2023-24", "LAL"⟩

/-- A raw record played on day 100 — inside a 30-day window ending on day
120, outside one ending on day 200. -/
def cLog : LogRow := ⟨1, 100, "Lakers", "2023-24 Regular Season", "Y", 10, 30, 5000, 20⟩

/-- The classified row of `cLog`. -/
def cX : XRow := ⟨cLog, some "Alice", some "LAL", "Regular", "2023-24"⟩

/-- A concrete scorer: exact matches score 100, the
`"A.J. Green"`/`"AJ Green"` pair scores 95, everything else 0. -/
def wScorer (a b : String) : ℕ :=
  if a = b then 100
  else if a = "A.J. Green" ∧ b = "AJ Green" then 95
  else 0

end BigDataBall

namespace BigDataBall

/-! ### Supporting lemmas -/

/-- Every joined row produced from the single raw row `r` carries `r` as its
raw part. -/
theorem mem_joinOne {players : List (ℤ × String)}
    {teams : List (String × String)} {r : LogRow}
    {x : LogRow × Option String × Option String}
    (hx : x ∈ joinOne players teams r) : x.1 = r := by
  simp only [joinOne, List.mem_flatMap, List.mem_map] at hx
  obtain ⟨nm, -, ab, -, rfl⟩ := hx
  rfl

/-- Appending one raw row whose segment classifies to nothing leaves the
classified row set unchanged. -/
theorem classifiedRows_append_unclassifiable (players : List (ℤ × String))
    (teams : List (String × String)) (logs : List LogRow) (r : LogRow)
    (hr : classifySeason r.seasonSegment = none) :
    classifiedRows players teams (logs ++ [r]) = classifiedRows players teams logs := by
  unfold classifiedRows joinedRows
  rw [List.flatMap_append, List.filterMap_append]
  have hnil : ((List.flatMap [r] (joinOne players teams)).filterMap classifyX) = [] := by
    rw [List.filterMap_eq_nil_iff]
    intro x hx
    simp only [List.flatMap_cons, List.flatMap_nil, List.append_nil] at hx
    have h1 : x.1 = r := mem_joinOne hx
    simp [classifyX, h1, hr]
  rw [hnil, List.append_nil]

/-! ### Claims -/

/-- **C5.** For every raw record the derived per-game per-minute rate is a
total value: when minutes is zero (the case where the float division gives
`inf`/`-inf`/`NaN`) the rate is exactly `0`, and otherwise it is the plain
quotient — so the `GAME_FPPM` column the aggregates consume never holds an
infinite or undefined value (in the embedding it is a total function into
`ℚ`). -/
theorem gameFppm_total (r : LogRow) :
    (r.minutes = 0 → gameFppm r = 0) ∧
    (r.minutes ≠ 0 → gameFppm r = r.dkPoints / r.minutes) := by
  constructor
  · intro h
    simp [gameFppm, ratioOrZero, h]
  · intro h
    simp [gameFppm, ratioOrZero, h]

/-- Witness for C5: a concrete zero-minute game row yields rate `0`, and a
ten-minute thirty-point row yields rate `3`. -/
theorem gameFppm_total_witness :
    gameFppm ⟨1, 0, "T", "s", "N", 0, 7, 5000, 10⟩ = 0 ∧
    gameFppm ⟨1, 0, "T", "s", "N", 10, 30, 5000, 10⟩ = (30 : ℚ) / 10 :=
  ⟨(gameFppm_total ⟨1, 0, "T", "s", "N", 0, 7, 5000, 10⟩).1 rfl,
   (gameFppm_total ⟨1, 0, "T", "s", "N", 10, 30, 5000, 10⟩).2 (by norm_num)⟩

/-- **C6.** Season classification: a segment matching the
Regular/Tournament pattern yields type `Regular` with key
`YYYY-YY` built from the first four-digit year token; a segment matching
the Playoffs/Play-In pattern (and not the Regular pattern, which is checked
first) yields type `Playoffs` with the token itself as key; a segment
matching neither pattern, or without a four-digit token, classifies to
nothing; and a record that classifies to nothing is excluded from the
summary table entirely while the aggregation still runs (appending such a
record never changes the output). -/
theorem season_classification_spec :
    classifySeason "2023-24 Regular Season" = some ("Regular", "2023-24")
    ∧ classifySeason "2024 Playoffs" = some ("Playoffs", "2024")
    ∧ (∀ seg tok y, (containsSub seg "Regular Season" = true ∨
          containsSub seg "In-Season Tournament" = true) →
        firstYearToken seg = some tok → parseNatDigits tok = some y →
        classifySeason seg = some ("Regular", tok ++ "-" ++ sliceTwoFour (toString (y + 1))))
    ∧ (∀ seg tok, containsSub seg "Regular Season" = false →
        containsSub seg "In-Season Tournament" = false →
        (containsSub seg "Playoffs" = true ∨ containsSub seg "Play-In" = true) →
        firstYearToken seg = some tok →
        classifySeason seg = some ("Playoffs", tok))
    ∧ (∀ seg, containsSub seg "Regular Season" = false →
        containsSub seg "In-Season Tournament" = false →
        containsSub seg "Playoffs" = false →
        containsSub seg "Play-In" = false →
        classifySeason seg = none)
    ∧ (∀ seg, firstYearToken seg = none → classifySeason seg = none)
    ∧ (∀ (sq : ℚ → ℚ) (today : ℤ) (logs : List LogRow)
        (teams : List (String × String)) (players : List (ℤ × String)) (r : LogRow),
        classifySeason r.seasonSegment = none →
        createFantasyAverages sq today (logs ++ [r]) teams players
          = createFantasyAverages sq today logs teams players) := by
  refine ⟨by decide, by decide, ?_, ?_, ?_, ?_, ?_⟩
  · intro seg tok y hpat htok hy
    rcases hpat with h | h <;> simp [classifySeason, h, htok, hy]
  · intro seg tok h1 h2 hpat htok
    rcases hpat with h | h <;> simp [classifySeason, h1, h2, h, htok]
  · intro seg h1 h2 h3 h4
    simp [classifySeason, h1, h2, h3, h4]
  · intro seg htok
    by_cases h1 : containsSub seg "Regular Season" = true <;>
      by_cases h2 : containsSub seg "In-Season Tournament" = true <;>
      by_cases h3 : containsSub seg "Playoffs" = true <;>
      by_cases h4 : containsSub seg "Play-In" = true <;>
      simp_all [classifySeason, firstYearToken]
  · intro sq today logs teams players r hr
    unfold createFantasyAverages
    rw [classifiedRows_append_unclassifiable players teams logs r hr]

/-- Witness for C6: the general branches applied at concrete segments — a
tournament segment, a play-in segment, an unmatched segment, a playoff
segment without a year token, and the pipeline ignoring an unclassifiable
record. -/
theorem season_classification_spec_witness :
    classifySeason "2024-25 In-Season Tournament" = some ("Regular", "2024-25")
    ∧ classifySeason "2025 Play-In" = some ("Playoffs", "2025")
    ∧ classifySeason "All-Star Weekend" = none
    ∧ classifySeason "Playoffs" = none
    ∧ createFantasyAverages (fun q => q) 0
        [⟨1, 0, "T", "Preseason", "N", 1, 1, 1, 1⟩] [] []
      = createFantasyAverages (fun q => q) 0 [] [] [] :=
  ⟨season_classification_spec.2.2.1 "2024-25 In-Season Tournament" "2024" 2024
      (Or.inr (by decide)) (by decide) (by decide),
   season_classification_spec.2.2.2.1 "2025 Play-In" "2025" (by decide) (by decide)
      (Or.inr (by decide)) (by decide),
   season_classification_spec.2.2.2.2.1 "All-Star Weekend" (by decide) (by decide)
      (by decide) (by decide),
   season_classification_spec.2.2.2.2.2.1 "Playoffs" (by decide),
   season_classification_spec.2.2.2.2.2.2 (fun q => q) 0 [] [] []
      ⟨1, 0, "T", "Preseason", "N", 1, 1, 1, 1⟩ (by decide)⟩

/-- `Series.sum` of a conditional `np.where(p, v, NaN)` column is the sum of
the underlying value over the rows satisfying the condition. -/
theorem optionSum_map_ite (F : XRow → Option ℚ) (p : XRow → Bool) (f : XRow → ℚ)
    (hF : ∀ x, F x = if p x then some (f x) else none) (g : List XRow) :
    optionSum (g.map F) = ((g.filter p).map f).sum := by
  induction g with
  | nil => rfl
  | cons x xs ih =>
    rw [List.map_cons, List.filter_cons, hF x]
    by_cases h : p x <;>
      simp [optionSum, optionVals, List.filterMap_cons, h] <;>
      simpa [optionSum, optionVals] using ih

/-- Rounding `0` at any precision gives `0`. -/
theorem roundDec_zero (d : ℕ) : roundDec d (0 : ℚ) = 0 := by
  norm_num [roundDec, roundHalfEven]

/-- Rounding a guarded ratio commutes with the zero-denominator guard. -/
theorem roundDec_ratioOrZero (d : ℕ) (a b : ℚ) :
    roundDec d (ratioOrZero a b) = if b = 0 then 0 else roundDec d (a / b) := by
  unfold ratioOrZero
  split_ifs <;> simp [roundDec_zero]

/-- The `FPPM` field of a summary row is the group's summed points over
summed minutes (rounded), `0` on a zero minute sum. -/
theorem mkSummaryRow_fppm (sq : ℚ → ℚ) (today : ℤ) (k : GKey) (g : List XRow) :
    (mkSummaryRow sq today k g).fppm =
      if (g.map fun x => x.row.minutes).sum = 0 then 0
      else roundDec 2 ((g.map fun x => x.row.dkPoints).sum /
        (g.map fun x => x.row.minutes).sum) := by
  simp only [mkSummaryRow]
  rw [roundDec_ratioOrZero]

/-- The starter-only `GSFPPM` field is summed starter points over summed
starter minutes (rounded), `0` on a zero starter minute sum. -/
theorem mkSummaryRow_gsfppm (sq : ℚ → ℚ) (today : ℤ) (k : GKey) (g : List XRow) :
    (mkSummaryRow sq today k g).gsfppm =
      if (((g.filter fun x => x.row.started == "Y").map fun x => x.row.minutes).sum : ℚ) = 0
      then 0
      else roundDec 2 (((g.filter fun x => x.row.started == "Y").map fun x => x.row.dkPoints).sum /
        ((g.filter fun x => x.row.started == "Y").map fun x => x.row.minutes).sum) := by
  simp only [mkSummaryRow]
  rw [optionSum_map_ite gsPointsOf (fun x => x.row.started == "Y")
      (fun x => x.row.dkPoints) (fun _ => rfl) g,
    optionSum_map_ite gsMinutesOf (fun x => x.row.started == "Y")
      (fun x => x.row.minutes) (fun _ => rfl) g,
    roundDec_ratioOrZero]

/-- The trailing-window `L30FPPM` field is summed in-window points over
summed in-window minutes (rounded), `0` on a zero in-window minute sum. -/
theorem mkSummaryRow_l30fppm (sq : ℚ → ℚ) (today : ℤ) (k : GKey) (g : List XRow) :
    (mkSummaryRow sq today k g).l30fppm =
      if (((g.filter (inWindow today)).map fun x => x.row.minutes).sum : ℚ) = 0 then 0
      else roundDec 2 (((g.filter (inWindow today)).map fun x => x.row.dkPoints).sum /
        ((g.filter (inWindow today)).map fun x => x.row.minutes).sum) := by
  simp only [mkSummaryRow]
  rw [optionSum_map_ite (l30PointsOf today) (inWindow today)
      (fun x => x.row.dkPoints) (fun _ => rfl) g,
    optionSum_map_ite (l30MinutesOf today) (inWindow today)
      (fun x => x.row.minutes) (fun _ => rfl) g,
    roundDec_ratioOrZero]

/-- **C2.** Every aggregate per-minute rate field (`FPPM`, starter-only
`GSFPPM`, trailing-window `L30FPPM`) equals the group's summed points over
summed minutes, rounded to two decimals, and is exactly `0` when the
relevant minute sum is zero; every row of the summary table arises this
way from its group; and the reported rate is not the mean of the per-game
rates — on the concrete varying-minute group `exGroupRates` the two
formulas disagree. -/
theorem aggregate_rates_weighted :
    (∀ (sq : ℚ → ℚ) (today : ℤ) (k : GKey) (g : List XRow),
      ((mkSummaryRow sq today k g).fppm =
        if (g.map fun x => x.row.minutes).sum = 0 then 0
        else roundDec 2 ((g.map fun x => x.row.dkPoints).sum /
          (g.map fun x => x.row.minutes).sum))
      ∧ ((mkSummaryRow sq today k g).gsfppm =
        if (((g.filter fun x => x.row.started == "Y").map fun x => x.row.minutes).sum : ℚ) = 0 then 0
        else roundDec 2 (((g.filter fun x => x.row.started == "Y").map fun x => x.row.dkPoints).sum /
          ((g.filter fun x => x.row.started == "Y").map fun x => x.row.minutes).sum))
      ∧ ((mkSummaryRow sq today k g).l30fppm =
        if (((g.filter (inWindow today)).map fun x => x.row.minutes).sum : ℚ) = 0 then 0
        else roundDec 2 (((g.filter (inWindow today)).map fun x => x.row.dkPoints).sum /
          ((g.filter (inWindow today)).map fun x => x.row.minutes).sum)))
    ∧ (∀ (sq : ℚ → ℚ) (today : ℤ) (logs : List LogRow) (teams : List (String × String))
        (players : List (ℤ × String)) (row : SummaryRow),
        row ∈ createFantasyAverages sq today logs teams players →
        ∃ k, row = mkSummaryRow sq today k
          (groupRows (classifiedRows players teams logs) k))
    ∧ (mkSummaryRow (fun q => q) 0 exKeyRates exGroupRates).fppm
        ≠ specNaiveMeanRate exGroupRates := by
  refine ⟨?_, ?_, ?_⟩
  · intro sq today k g
    exact ⟨mkSummaryRow_fppm sq today k g, mkSummaryRow_gsfppm sq today k g,
      mkSummaryRow_l30fppm sq today k g⟩
  · intro sq today logs teams players row hrow
    simp only [createFantasyAverages, List.mem_map] at hrow
    obtain ⟨k, -, rfl⟩ := hrow
    exact ⟨k, rfl⟩
  · have h1 : ((exGroupRates.map fun x => x.row.dkPoints).sum) = 1 := by
      simp [exGroupRates]
    have h2 : ((exGroupRates.map fun x => x.row.minutes).sum) = 10 := by
      simp [exGroupRates]
      norm_num
    have h3 := mkSummaryRow_fppm (fun q => q) 0 exKeyRates exGroupRates
    rw [h1, h2, if_neg (by norm_num)] at h3
    have h4 : specNaiveMeanRate exGroupRates = 1 / 2 := by
      simp [specNaiveMeanRate, exGroupRates, listMean, gameFppm, ratioOrZero]
    rw [h3, h4]
    norm_num [roundDec, roundHalfEven]

/-- The witness store groups to exactly one key. -/
theorem wKey_groupKeys :
    groupKeys (classifiedRows wPlayers wTeams [wLog]) = [wKey] := by decide

/-- Witness for C2: on the concrete one-row store the summary-row
membership hypothesis is discharged and the theorem produces the row's
group key. -/
theorem aggregate_rates_weighted_witness :
    ∃ k, mkSummaryRow (fun q => q) 0 wKey
        (groupRows (classifiedRows wPlayers wTeams [wLog]) wKey)
      = mkSummaryRow (fun q => q) 0 k
        (groupRows (classifiedRows wPlayers wTeams [wLog]) k) := by
  have hmem : mkSummaryRow (fun q => q) 0 wKey
      (groupRows (classifiedRows wPlayers wTeams [wLog]) wKey)
      ∈ createFantasyAverages (fun q => q) 0 [wLog] wTeams wPlayers := by
    simp only [createFantasyAverages]
    rw [wKey_groupKeys]
    simp
  exact aggregate_rates_weighted.2.1 (fun q => q) 0 [wLog] wTeams wPlayers _ hmem

/-! Helper lemmas about empty and near-empty conditional columns. -/

/-- A conditional column that is `NaN` on every row has no present values. -/
theorem optionVals_eq_nil {F : XRow → Option ℚ} {g : List XRow}
    (h : ∀ x ∈ g, F x = none) : optionVals (g.map F) = [] := by
  simp only [optionVals, List.filterMap_map]
  rw [List.filterMap_eq_nil_iff]
  intro x hx
  simpa using h x hx

/-- Mean of a valueless conditional column is `NaN`. -/
theorem optionMean_none {l : List (Option ℚ)} (h : optionVals l = []) :
    optionMean l = none := by
  simp [optionMean, h]

/-- Standard deviation of a column with at most one present value is `NaN`. -/
theorem optionStd_none (sq : ℚ → ℚ) {l : List (Option ℚ)}
    (h : (optionVals l).length ≤ 1) : optionStd sq l = none := by
  simp [optionStd, sampleStd, h]

/-- Sum of a valueless conditional column is `0` (pandas `sum` skipna). -/
theorem optionSum_zero {l : List (Option ℚ)} (h : optionVals l = []) :
    optionSum l = 0 := by
  simp [optionSum, h]

/-- A conditional column has at most as many present values as rows. -/
theorem optionVals_length_le (F : XRow → Option ℚ) (g : List XRow) :
    (optionVals (g.map F)).length ≤ g.length := by
  simp only [optionVals, List.filterMap_map]
  exact le_trans (List.length_filterMap_le _ _) (le_refl _)

/-- **C10.** No summary-table numeric field is ever null (each is a total
`ℚ`/`ℤ`/`ℕ` value by construction): a group whose player never started
reports `0` for all starter-conditioned fields (`GSFPPG`, `STDV_GSFPPG`,
`GSMPG`, `STDV_GSMPG`, `GSFPPM`), a group with no game inside the trailing
30-day window reports `L30FPPM = 0`, and a single-game group reports `0`
for every standard-deviation field — the `fillna(0)` after rounding turns
each `NaN` aggregate into a stored `0`. -/
theorem summary_no_null_numeric (sq : ℚ → ℚ) (today : ℤ) (k : GKey) (g : List XRow) :
    ((∀ x ∈ g, ¬x.row.started = "Y") →
      (mkSummaryRow sq today k g).gsfppg = 0
      ∧ (mkSummaryRow sq today k g).stdvGsfppg = 0
      ∧ (mkSummaryRow sq today k g).gsmpg = 0
      ∧ (mkSummaryRow sq today k g).stdvGsmpg = 0
      ∧ (mkSummaryRow sq today k g).gsfppm = 0)
    ∧ ((∀ x ∈ g, inWindow today x = false) →
      (mkSummaryRow sq today k g).l30fppm = 0)
    ∧ (g.length = 1 →
      (mkSummaryRow sq today k g).stdvFppg = 0
      ∧ (mkSummaryRow sq today k g).stdvMpg = 0
      ∧ (mkSummaryRow sq today k g).stdvFppm = 0
      ∧ (mkSummaryRow sq today k g).stdvGsfppg = 0
      ∧ (mkSummaryRow sq today k g).stdvGsmpg = 0
      ∧ (mkSummaryRow sq today k g).stdvGsfppm = 0) := by
  refine ⟨?_, ?_, ?_⟩
  · intro h
    have hp : ∀ x ∈ g, gsPointsOf x = none := by
      intro x hx
      simp [gsPointsOf, h x hx]
    have hm : ∀ x ∈ g, gsMinutesOf x = none := by
      intro x hx
      simp [gsMinutesOf, h x hx]
    simp only [mkSummaryRow]
    rw [optionMean_none (optionVals_eq_nil hp), optionStd_none sq (by
        rw [optionVals_eq_nil hp]; exact Nat.zero_le 1),
      optionMean_none (optionVals_eq_nil hm), optionStd_none sq (by
        rw [optionVals_eq_nil hm]; exact Nat.zero_le 1),
      optionSum_zero (optionVals_eq_nil hp), optionSum_zero (optionVals_eq_nil hm)]
    refine ⟨rfl, rfl, rfl, rfl, ?_⟩
    simp [ratioOrZero, roundDec_zero]
  · intro h
    have hm : ∀ x ∈ g, l30MinutesOf today x = none := by
      intro x hx
      simp [l30MinutesOf, h x hx]
    have hp : ∀ x ∈ g, l30PointsOf today x = none := by
      intro x hx
      simp [l30PointsOf, h x hx]
    simp only [mkSummaryRow]
    rw [optionSum_zero (optionVals_eq_nil hp), optionSum_zero (optionVals_eq_nil hm)]
    simp [ratioOrZero, roundDec_zero]
  · intro h
    have h1 : (g.map fun x => x.row.dkPoints).length ≤ 1 := by simp [h]
    have h2 : (g.map fun x => x.row.minutes).length ≤ 1 := by simp [h]
    have h3 : (g.map fun x => gameFppm x.row).length ≤ 1 := by simp [h]
    have h4 := le_trans (optionVals_length_le gsPointsOf g) (le_of_eq h)
    have h5 := le_trans (optionVals_length_le gsMinutesOf g) (le_of_eq h)
    have h6 := le_trans (optionVals_length_le gsFppmOf g) (le_of_eq h)
    simp only [mkSummaryRow]
    rw [optionStd_none sq h4, optionStd_none sq h5, optionStd_none sq h6]
    simp only [sampleStd, if_pos h1, if_pos h2, if_pos h3]
    exact ⟨rfl, rfl, rfl, rfl, rfl, rfl⟩

/-- Witness for C10: a single non-starter game played long before the
window start reports `0` for every starter-conditioned field, for
`L30FPPM`, and for every standard-deviation field. -/
theorem summary_no_null_numeric_witness :
    (mkSummaryRow (fun q => q) 1000 wKey
        [⟨wLog, some "Alice", some "LAL", "Regular", "2023-24"⟩]).l30fppm = 0
    ∧ (mkSummaryRow (fun q => q) 1000 wKey
        [⟨{ wLog with started := "N" }, some "Alice", some "LAL", "Regular", "2023-24"⟩]).gsfppm = 0
    ∧ (mkSummaryRow (fun q => q) 1000 wKey
        [⟨wLog, some "Alice", some "LAL", "Regular", "2023-24"⟩]).stdvFppg = 0 :=
  ⟨(summary_no_null_numeric (fun q => q) 1000 wKey
      [⟨wLog, some "Alice", some "LAL", "Regular", "2023-24"⟩]).2.1
      (by intro x hx; simp at hx; subst hx; decide),
   ((summary_no_null_numeric (fun q => q) 1000 wKey
      [⟨{ wLog with started := "N" }, some "Alice", some "LAL", "Regular", "2023-24"⟩]).1
      (by intro x hx; simp at hx; subst hx; decide)).2.2.2.2,
   ((summary_no_null_numeric (fun q => q) 1000 wKey
      [⟨wLog, some "Alice", some "LAL", "Regular", "2023-24"⟩]).2.2 rfl).1⟩

/-! C3: the aggregation is deterministic in its three table inputs *and*
the processing date; the date dependence enters only through the trailing
30-day window. -/

/-- The one-record store groups to the single key `wKey`. -/
theorem cLog_groupKeys :
    groupKeys (classifiedRows wPlayers wTeams [cLog]) = [wKey] := by decide

/-- The group of `wKey` in the one-record store is `[cX]`. -/
theorem cLog_groupRows :
    groupRows (classifiedRows wPlayers wTeams [cLog]) wKey = [cX] := by decide

/-- The summary of the one-record store at any processing date. -/
theorem cLog_create (t : ℤ) :
    createFantasyAverages (fun q => q) t [cLog] wTeams wPlayers
      = [mkSummaryRow (fun q => q) t wKey [cX]] := by
  simp only [createFantasyAverages]
  rw [cLog_groupKeys, List.map_cons, List.map_nil, cLog_groupRows]

/-- **C3, counterexample.** The claim that two aggregation runs over the
same raw store, registry and team mapping are byte-identical is false: the
trailing-window field reads the processing clock, so the same three inputs
aggregated at day 120 and at day 200 give different summary tables (the
day-100 game is inside one window and outside the other). -/
theorem aggregation_not_pure_in_three_inputs :
    createFantasyAverages (fun q => q) 120 [cLog] wTeams wPlayers
      ≠ createFantasyAverages (fun q => q) 200 [cLog] wTeams wPlayers := by
  have h1 : (mkSummaryRow (fun q => q) 120 wKey [cX]).l30fppm = 3 := by
    rw [mkSummaryRow_l30fppm]
    have hf : [cX].filter (inWindow 120) = [cX] := by decide
    rw [hf]
    simp only [List.map_cons, List.map_nil, List.sum_cons, List.sum_nil]
    rw [if_neg (by norm_num [cX, cLog])]
    norm_num [cX, cLog, roundDec, roundHalfEven]
  have h2 : (mkSummaryRow (fun q => q) 200 wKey [cX]).l30fppm = 0 := by
    rw [mkSummaryRow_l30fppm]
    have hf : [cX].filter (inWindow 200) = [] := by decide
    rw [hf]
    simp
  intro h
  rw [cLog_create 120, cLog_create 200] at h
  have := congrArg (fun l => (l.map fun r => r.l30fppm)) h
  simp only [List.map_cons, List.map_nil, h1, h2] at this
  exact absurd (List.cons.injEq .. ▸ this).1 (by norm_num)

/-- **C3, amended.** The summary is a deterministic pure function of the
raw store, the registry, the team mapping *and the processing date*: two
runs with the same processing date produce identical tables, each run
fully replaces any prior summary contents (the output never depends on
them), and re-running on its own output changes nothing. -/
theorem summary_replace_deterministic (sq : ℚ → ℚ) (today : ℤ) (logs : List LogRow)
    (teams : List (String × String)) (players : List (ℤ × String))
    (prior prior' : List SummaryRow) :
    writeSummaryTable sq today prior logs teams players
      = writeSummaryTable sq today prior' logs teams players
    ∧ writeSummaryTable sq today prior logs teams players
      = createFantasyAverages sq today logs teams players
    ∧ writeSummaryTable sq today
        (writeSummaryTable sq today prior logs teams players) logs teams players
      = writeSummaryTable sq today prior logs teams players :=
  ⟨rfl, rfl, rfl⟩

/-! C4: a raw record whose team has no mapping entry survives the join with
a null abbreviation, but the `groupby` silently drops it (pandas drops
rows whose group key holds `NaN`), so it reaches no summary group. -/

/-- Every left-merge cell list is inhabited. -/
theorem mergeVals_exists_mem {β : Type} (hits : List β) : ∃ v, v ∈ mergeVals hits := by
  cases hits with
  | nil => exact ⟨none, by simp [mergeVals]⟩
  | cons a t => exact ⟨some a, by simp [mergeVals]⟩

/-- A raw row with no team-mapping match joins to a row with a `none`
abbreviation. -/
theorem join_unmatched_team_mem {players : List (ℤ × String)}
    {teams : List (String × String)} {logs : List LogRow} {r : LogRow}
    (hr : r ∈ logs) (ht : teams.filter (fun t => t.1 == r.team) = []) :
    ∃ nm, (r, nm, (none : Option String)) ∈ joinedRows players teams logs := by
  obtain ⟨nm, hnm⟩ :=
    mergeVals_exists_mem ((players.filter fun p => p.1 == r.playerId).map fun p => p.2)
  refine ⟨nm, ?_⟩
  simp only [joinedRows, List.mem_flatMap]
  refine ⟨r, hr, ?_⟩
  simp only [joinOne, ht, List.mem_flatMap]
  exact ⟨nm, hnm, by simp [mergeVals]⟩

/-- **C4, counterexample.** The claim that a season-classifiable record
with an unmapped team still contributes to some summary group is false:
with an empty team mapping the single classifiable record `wLog` produces
an empty summary table. -/
theorem unmatched_team_reaches_no_group :
    classifySeason wLog.seasonSegment = some ("Regular", "2023-24")
    ∧ createFantasyAverages (fun q => q) 0 [wLog] [] wPlayers = [] :=
  ⟨by decide, by decide⟩

/-- **C4, amended.** A raw record whose team has no mapping entry is kept
by the join with a null team abbreviation (not dropped there) and — when
season-classifiable — still appears among the classified rows, but it is
excluded from the summary at the grouping step: its null abbreviation
forms no group key, so it belongs to no group. -/
theorem unmatched_team_kept_by_join_dropped_by_grouping
    (players : List (ℤ × String)) (teams : List (String × String))
    (logs : List LogRow) (r : LogRow) (hr : r ∈ logs)
    (ht : teams.filter (fun t => t.1 == r.team) = [])
    (t sk : String) (hc : classifySeason r.seasonSegment = some (t, sk)) :
    ∃ nm, (⟨r, nm, none, t, sk⟩ : XRow) ∈ classifiedRows players teams logs
      ∧ ∀ gk, (⟨r, nm, none, t, sk⟩ : XRow)
          ∉ groupRows (classifiedRows players teams logs) gk := by
  obtain ⟨nm, hnm⟩ := @join_unmatched_team_mem players teams logs r hr ht
  refine ⟨nm, ?_, ?_⟩
  · simp only [classifiedRows, List.mem_filterMap]
    exact ⟨(r, nm, none), hnm, by simp [classifyX, hc]⟩
  · intro gk hmem
    rw [groupRows, List.mem_filter] at hmem
    have hk := hmem.2
    cases nm <;> simp [keyOf] at hk

/-- Witness for C4's amended theorem: the concrete store `[wLog]` with an
empty team mapping — the record is among the classified rows with a null
abbreviation yet belongs to no group. -/
theorem unmatched_team_witness :
    ∃ nm, (⟨wLog, nm, none, "Regular", "2023-24"⟩ : XRow)
        ∈ classifiedRows wPlayers [] [wLog]
      ∧ ∀ gk, (⟨wLog, nm, none, "Regular", "2023-24"⟩ : XRow)
          ∉ groupRows (classifiedRows wPlayers [] [wLog]) gk :=
  unmatched_team_kept_by_join_dropped_by_grouping wPlayers [] [wLog] wLog
    (by simp) rfl "Regular" "2023-24" (by decide)

/-! C7: fail-fast ingestion — the archived files are exactly a
successfully processed prefix of the sorted batch, the final state
reflects only that prefix, and when the run errored the next file is the
one that failed. -/

/-- Structure of a file-loop run: there is a prefix length `n` such that
the archived names are the first `n` names, the final state is the
sequential application of the first `n` files, a clean run has `n` equal
to the batch size, and an errored run stopped exactly at file `n`, which
failed from the state the prefix produced. -/
theorem runFiles_spec (pd : String → Option String) (keys : List String) :
    ∀ (files : List IngFile) (st : IngState),
    ∃ n, n ≤ files.length
      ∧ (runFiles pd keys st files).2.1 = ((files.take n).map fun f => f.name)
      ∧ (runFiles pd keys st files).1 = applyFiles pd keys st (files.take n)
      ∧ ((runFiles pd keys st files).2.2 = none → n = files.length)
      ∧ (∀ e, (runFiles pd keys st files).2.2 = some e →
          ∃ f rest, files.drop n = f :: rest
            ∧ processFile pd keys (applyFiles pd keys st (files.take n)) f = .error e) := by
  intro files
  induction files with
  | nil =>
    intro st
    exact ⟨0, Nat.le_refl 0, rfl, rfl, fun _ => rfl, fun e he => by cases he⟩
  | cons f fs ih =>
    intro st
    cases hpf : processFile pd keys st f with
    | error e =>
      refine ⟨0, Nat.zero_le _, ?_, ?_, ?_, ?_⟩
      · simp [runFiles, hpf]
      · simp [runFiles, hpf, applyFiles]
      · intro hn
        simp [runFiles, hpf] at hn
      · intro e' he'
        simp only [runFiles, hpf] at he'
        injection he' with he''
        subst he''
        exact ⟨f, fs, rfl, by simpa [applyFiles] using hpf⟩
    | ok st' =>
      obtain ⟨n, hn, harch, hstate, hnone, hsome⟩ := ih st'
      refine ⟨n + 1, Nat.succ_le_succ hn, ?_, ?_, ?_, ?_⟩
      · simp only [runFiles, hpf, List.take_succ_cons, List.map_cons]
        exact congrArg _ harch
      · simp only [runFiles, hpf, List.take_succ_cons, applyFiles]
        exact hstate
      · intro hne
        simp only [runFiles, hpf] at hne
        simp [hnone hne]
      · intro e he
        simp only [runFiles, hpf] at he
        obtain ⟨g, rest, hdrop, hfail⟩ := hsome e he
        refine ⟨g, rest, ?_, ?_⟩
        · simpa using hdrop
        · simp only [List.take_succ_cons, applyFiles, hpf]
          exact hfail

/-- **C7.** A whole ingestion run over the name-sorted batch archives
exactly the files of a successfully processed prefix, in order; the final
state is the sequential effect of that prefix alone — so a file on which
processing raised is not archived and no file after it was processed —
and when the run reports an error, the file right after the archived
prefix is the one that failed. -/
theorem ingestion_fail_fast (pd : String → Option String) (st : IngState)
    (files : List IngFile) :
    ∃ n, n ≤ (sortFiles files).length
      ∧ (runIngestion pd st files).2.1
          = (((sortFiles files).take n).map fun f => f.name)
      ∧ (runIngestion pd st files).1
          = applyFiles pd (storeKeys st.logs) st ((sortFiles files).take n)
      ∧ ((runIngestion pd st files).2.2 = none → n = (sortFiles files).length)
      ∧ (∀ e, (runIngestion pd st files).2.2 = some e →
          ∃ f rest, (sortFiles files).drop n = f :: rest
            ∧ processFile pd (storeKeys st.logs)
                (applyFiles pd (storeKeys st.logs) st ((sortFiles files).take n)) f
              = .error e) :=
  runFiles_spec pd (storeKeys st.logs) (sortFiles files) st

/-! C9: registry maintenance — append-only, at most one insertion per new
identifier per run, names taken from the batch rows, and every retained
row's identifier ends up registered. -/

/-- `drop_duplicates` only keeps rows of the original frame. -/
theorem mem_of_mem_dedupFirstById {x : StoredRow} :
    ∀ {l : List StoredRow}, x ∈ dedupFirstById l → x ∈ l := by
  intro l
  induction l using dedupFirstById.induct with
  | case1 => intro h; rw [dedupFirstById] at h; cases h
  | case2 r rs ih =>
    intro h
    rw [dedupFirstById] at h
    rcases List.mem_cons.mp h with h | h
    · exact h ▸ List.mem_cons_self r rs
    · exact List.mem_cons_of_mem r (List.mem_of_mem_filter (ih h))

/-- Every identifier of the frame survives `drop_duplicates` on some row. -/
theorem dedupFirstById_covers {x : StoredRow} :
    ∀ {l : List StoredRow}, x ∈ l → ∃ y ∈ dedupFirstById l, y.playerId = x.playerId := by
  intro l
  induction l using dedupFirstById.induct with
  | case1 => intro h; cases h
  | case2 r rs ih =>
    intro hm
    rcases List.mem_cons.mp hm with h | h
    · exact ⟨r, by rw [dedupFirstById]; exact List.mem_cons_self .., by rw [h]⟩
    · by_cases hid : x.playerId = r.playerId
      · exact ⟨r, by rw [dedupFirstById]; exact List.mem_cons_self .., hid.symm⟩
      · obtain ⟨y, hy, hyid⟩ := ih (List.mem_filter.mpr ⟨h, by simpa using hid⟩)
        exact ⟨y, by rw [dedupFirstById]; exact List.mem_cons_of_mem _ hy, hyid⟩

/-- `drop_duplicates(subset=["PLAYER_ID"])` leaves pairwise distinct
identifiers. -/
theorem dedupFirstById_ids_nodup :
    ∀ (l : List StoredRow), ((dedupFirstById l).map fun r => r.playerId).Nodup := by
  intro l
  induction l using dedupFirstById.induct with
  | case1 => simp [dedupFirstById]
  | case2 r rs ih =>
    rw [dedupFirstById, List.map_cons, List.nodup_cons]
    refine ⟨?_, ih⟩
    intro hmem
    obtain ⟨y, hy, hyid⟩ := List.mem_map.mp hmem
    have := List.mem_filter.mp (mem_of_mem_dedupFirstById hy)
    simp only [decide_not, Bool.not_eq_eq_eq_not, Bool.not_true, decide_eq_false_iff_not] at this
    exact this.2 hyid

/-- Rows produced by date normalization keep the identifier and the display
name of a source row of the file. -/
theorem parseRows_mem {pd : String → Option String} :
    ∀ {rows : List SrcRow} {cleaned : List StoredRow},
      parseRows pd rows = some cleaned →
      ∀ x ∈ cleaned, ∃ src ∈ rows, src.playerId = x.playerId ∧ src.player = x.player := by
  intro rows
  induction rows with
  | nil =>
    intro cleaned h x hx
    simp only [parseRows] at h
    cases h
    cases hx
  | cons r rs ih =>
    intro cleaned h x hx
    simp only [parseRows] at h
    split at h
    next d tl hd htl =>
      cases h
      rcases List.mem_cons.mp hx with h | h
      · exact ⟨r, List.mem_cons_self .., by rw [h]; exact ⟨rfl, rfl⟩⟩
      · obtain ⟨src, hsrc, hs⟩ := ih htl x h
        exact ⟨src, List.mem_cons_of_mem _ hsrc, hs⟩
    next => cases h

/-- One successful file step appends a block of new registry entries:
pairwise distinct identifiers, none previously registered, names drawn
from the file's rows. -/
theorem processFile_players {pd : String → Option String} {keys : List String}
    {st : IngState} {f : IngFile} {st' : IngState}
    (h : processFile pd keys st f = .ok st') :
    ∃ newE, st'.players = st.players ++ newE
      ∧ (newE.map (fun p => p.1)).Nodup
      ∧ ∀ p ∈ newE, p.1 ∉ st.players.map (fun q => q.1)
          ∧ ∃ r ∈ f.rows, r.playerId = p.1 ∧ r.player = p.2 := by
  unfold processFile at h
  split at h
  next => cases h
  next cleaned hclean =>
    split at h
    next =>
      cases h
      exact ⟨[], by simp, by simp, by simp⟩
    next =>
      cases h
      refine ⟨_, rfl, ?_, ?_⟩
      · unfold toInsertOf
        rw [List.map_map]
        have hsub : List.Sublist
            ((dedupFirstById (retainedOf keys cleaned)).filter
              (fun r => !((st.players.map fun p => p.1).contains r.playerId)))
            (dedupFirstById (retainedOf keys cleaned)) :=
          List.filter_sublist _
        have hn := (dedupFirstById_ids_nodup (retainedOf keys cleaned)).sublist
          (hsub.map fun r => r.playerId)
        simpa using hn
      · intro p hp
        unfold toInsertOf at hp
        obtain ⟨r, hr, rfl⟩ := List.mem_map.mp hp
        have hf := List.mem_filter.mp hr
        constructor
        · simpa using hf.2
        · have hr2 : r ∈ cleaned :=
            List.mem_of_mem_filter (mem_of_mem_dedupFirstById hf.1)
          obtain ⟨src, hsrc, h1, h2⟩ := parseRows_mem hclean r hr2
          exact ⟨src, hsrc, h1, h2⟩

/-- One successful file step keeps the coverage invariant: every stored
log row's identifier is registered. -/
theorem processFile_logs_covered {pd : String → Option String} {keys : List String}
    {st : IngState} {f : IngFile} {st' : IngState}
    (h : processFile pd keys st f = .ok st')
    (hinv : ∀ r ∈ st.logs, r.playerId ∈ st.players.map (fun q => q.1)) :
    ∀ r ∈ st'.logs, r.playerId ∈ st'.players.map (fun q => q.1) := by
  unfold processFile at h
  split at h
  next => cases h
  next cleaned hclean =>
    split at h
    next =>
      cases h
      exact hinv
    next =>
      cases h
      intro r hr
      show r.playerId ∈ List.map (fun q => q.1)
        (st.players ++ toInsertOf st.players (retainedOf keys cleaned))
      rw [List.map_append]
      rcases List.mem_append.mp hr with h | h
      · exact List.mem_append.mpr (Or.inl (hinv r h))
      · obtain ⟨y, hy, hyid⟩ := dedupFirstById_covers h
        by_cases hc : y.playerId ∈ st.players.map (fun q => q.1)
        · exact List.mem_append.mpr (Or.inl (hyid ▸ hc))
        · refine List.mem_append.mpr (Or.inr ?_)
          unfold toInsertOf
          rw [List.map_map]
          refine List.mem_map.mpr ⟨y, ?_, hyid⟩
          exact List.mem_filter.mpr ⟨hy, by simpa using hc⟩

/-- Registry effect of the whole file loop. -/
theorem runFiles_players (pd : String → Option String) (keys : List String) :
    ∀ (files : List IngFile) (st : IngState),
    ∃ newE, (runFiles pd keys st files).1.players = st.players ++ newE
      ∧ ((st.players.map (fun p => p.1)).Nodup →
          ((st.players ++ newE).map (fun p => p.1)).Nodup)
      ∧ (∀ p ∈ newE, p.1 ∉ st.players.map (fun q => q.1)
          ∧ ∃ f ∈ files, ∃ r ∈ f.rows, r.playerId = p.1 ∧ r.player = p.2)
      ∧ ((∀ r ∈ st.logs, r.playerId ∈ st.players.map (fun q => q.1)) →
          ∀ r ∈ (runFiles pd keys st files).1.logs,
            r.playerId ∈ (runFiles pd keys st files).1.players.map (fun q => q.1)) := by
  intro files
  induction files with
  | nil =>
    intro st
    exact ⟨[], by simp [runFiles], fun h => by simpa using h, by simp, fun h => h⟩
  | cons f fs ih =>
    intro st
    cases hpf : processFile pd keys st f with
    | error e =>
      refine ⟨[], by simp [runFiles, hpf], fun h => by simpa using h, by simp, ?_⟩
      intro hinv
      simp only [runFiles, hpf]
      exact hinv
    | ok st' =>
      obtain ⟨newE1, hE1, hN1, hP1⟩ := processFile_players hpf
      obtain ⟨newE2, hE2, hN2, hP2, hC2⟩ := ih st'
      have hids : st.players.map (fun q => q.1) ⊆ st'.players.map (fun q => q.1) := by
        rw [hE1, List.map_append]
        exact List.subset_append_left _ _
      refine ⟨newE1 ++ newE2, ?_, ?_, ?_, ?_⟩
      · simp only [runFiles, hpf]
        rw [hE2, hE1, List.append_assoc]
      · intro h
        have hst' : (st'.players.map (fun p => p.1)).Nodup := by
          rw [hE1, List.map_append, List.nodup_append]
          refine ⟨h, hN1, ?_⟩
          intro a ha hb
          obtain ⟨p, hp, rfl⟩ := List.mem_map.mp hb
          exact (hP1 p hp).1 ha
        have h2 := hN2 hst'
        rw [hE1, List.append_assoc] at h2
        exact h2
      · intro p hp
        rcases List.mem_append.mp hp with h | h
        · obtain ⟨hni, r, hr, hrr⟩ := hP1 p h
          exact ⟨hni, f, List.mem_cons_self .., r, hr, hrr⟩
        · obtain ⟨hni, g, hg, r, hr, hrr⟩ := hP2 p h
          exact ⟨fun hmem => hni (hids hmem), g, List.mem_cons_of_mem _ hg, r, hr, hrr⟩
      · intro hinv
        simp only [runFiles, hpf]
        exact hC2 (processFile_logs_covered hpf hinv)

/-- `insertSorted` adds exactly its element. -/
theorem mem_insertSorted {f x : IngFile} :
    ∀ (l : List IngFile), x ∈ insertSorted f l ↔ x = f ∨ x ∈ l := by
  intro l
  induction l with
  | nil => simp [insertSorted]
  | cons g gs ih =>
    simp only [insertSorted]
    split
    · simp [List.mem_cons]
    · simp only [List.mem_cons, ih]
      tauto

/-- Sorting permutes nothing in or out of the batch. -/
theorem mem_sortFiles {x : IngFile} :
    ∀ (l : List IngFile), x ∈ sortFiles l ↔ x ∈ l := by
  intro l
  induction l with
  | nil => simp [sortFiles]
  | cons g gs ih =>
    simp only [sortFiles, mem_insertSorted, ih, List.mem_cons]

/-- **C9.** Given a registry with pairwise distinct identifiers, a whole
ingestion run only appends to it: existing entries (and their names) are
untouched, the appended entries have pairwise distinct identifiers — one
insertion per new identifier per run, even across files — none of them
was previously registered, each takes its display name from a row of some
batch file, and (when the store was covered) every stored row's identifier
is registered after the run. -/
theorem registry_append_only (pd : String → Option String) (st : IngState)
    (files : List IngFile)
    (h : (st.players.map (fun p => p.1)).Nodup) :
    ∃ newE, (runIngestion pd st files).1.players = st.players ++ newE
      ∧ ((st.players ++ newE).map (fun p => p.1)).Nodup
      ∧ (∀ p ∈ newE, p.1 ∉ st.players.map (fun q => q.1)
          ∧ ∃ f ∈ files, ∃ r ∈ f.rows, r.playerId = p.1 ∧ r.player = p.2)
      ∧ ((∀ r ∈ st.logs, r.playerId ∈ st.players.map (fun q => q.1)) →
          ∀ r ∈ (runIngestion pd st files).1.logs,
            r.playerId ∈ (runIngestion pd st files).1.players.map (fun q => q.1)) := by
  obtain ⟨newE, hE, hN, hP, hC⟩ :=
    runFiles_players pd (storeKeys st.logs) (sortFiles files) st
  refine ⟨newE, hE, hN h, ?_, hC⟩
  intro p hp
  obtain ⟨hni, f, hf, r, hr, hrr⟩ := hP p hp
  exact ⟨hni, f, (mem_sortFiles files).mp hf, r, hr, hrr⟩

/-- Witness for C9: a two-file batch in which the same player appears in
both files and twice in the first — the registry gains exactly one entry. -/
theorem registry_append_only_witness :
    ∃ newE, (runIngestion some (IngState.mk [] [])
        [⟨"a.xlsx", [⟨1, "Alice", "2024-01-01"⟩, ⟨1, "Alice", "2024-01-02"⟩]⟩,
         ⟨"b.xlsx", [⟨1, "Alice", "2024-01-03"⟩]⟩]).1.players = [] ++ newE
      ∧ (([] ++ newE).map (fun p => (p : ℤ × String).1)).Nodup
      ∧ (∀ p ∈ newE, p.1 ∉ ([] : List (ℤ × String)).map (fun q => q.1)
          ∧ ∃ f ∈ [(⟨"a.xlsx", [⟨1, "Alice", "2024-01-01"⟩, ⟨1, "Alice", "2024-01-02"⟩]⟩ : IngFile),
              ⟨"b.xlsx", [⟨1, "Alice", "2024-01-03"⟩]⟩],
              ∃ r ∈ f.rows, r.playerId = p.1 ∧ r.player = p.2)
      ∧ ((∀ r ∈ ([] : List StoredRow), r.playerId ∈ ([] : List (ℤ × String)).map (fun q => q.1)) →
          ∀ r ∈ (runIngestion some (IngState.mk [] [])
            [⟨"a.xlsx", [⟨1, "Alice", "2024-01-01"⟩, ⟨1, "Alice", "2024-01-02"⟩]⟩,
             ⟨"b.xlsx", [⟨1, "Alice", "2024-01-03"⟩]⟩]).1.logs,
            r.playerId ∈ (runIngestion some (IngState.mk [] [])
              [⟨"a.xlsx", [⟨1, "Alice", "2024-01-01"⟩, ⟨1, "Alice", "2024-01-02"⟩]⟩,
               ⟨"b.xlsx", [⟨1, "Alice", "2024-01-03"⟩]⟩]).1.players.map (fun q => q.1)) :=
  registry_append_only some (IngState.mk [] [])
    [⟨"a.xlsx", [⟨1, "Alice", "2024-01-01"⟩, ⟨1, "Alice", "2024-01-02"⟩]⟩,
     ⟨"b.xlsx", [⟨1, "Alice", "2024-01-03"⟩]⟩] (by decide)

/-! C1: in-run deduplication.  The source intends the in-memory key set to
grow across files of one run (the "Crucial Update" comment in both upload
scripts), but the set is rebuilt from the unchanged pre-loaded dataframe
at the top of every iteration, so the update is dead and a record appended
from an earlier file of the same run is appended again by a later file. -/

/-- **C1, failing run.** Two files of one batch each hold the same
`(player, date)` record over an initially empty store: the run appends the
record twice, and dedup-key uniqueness fails in the resulting store — the
keys added by file `a.xlsx` do not suppress the duplicate in `b.xlsx`. -/
theorem dedup_fails_within_run :
    (runIngestion some (IngState.mk [] [])
        [⟨"a.xlsx", [⟨1, "Alice", "2024-01-01"⟩]⟩,
         ⟨"b.xlsx", [⟨1, "Alice", "2024-01-01"⟩]⟩]).1.logs
      = [⟨1, "Alice", "2024-01-01"⟩, ⟨1, "Alice", "2024-01-01"⟩]
    ∧ ¬ (((runIngestion some (IngState.mk [] [])
        [⟨"a.xlsx", [⟨1, "Alice", "2024-01-01"⟩]⟩,
         ⟨"b.xlsx", [⟨1, "Alice", "2024-01-01"⟩]⟩]).1.logs.map keyOfStored).Nodup) :=
  ⟨by decide, by decide⟩

/-- Keys already in the store at the start of a run are suppressed (the
half of the dedup contract the code does meet): re-presenting a file whose
record is already stored appends nothing. -/
theorem dedup_suppresses_preexisting :
    (runIngestion some (IngState.mk [⟨1, "Alice", "2024-01-01"⟩] [(1, "Alice")])
        [⟨"a.xlsx", [⟨1, "Alice", "2024-01-01"⟩]⟩]).1.logs
      = [⟨1, "Alice", "2024-01-01"⟩] :=
  by decide

/-! C8: fuzzy name resolution.  The similarity scorer
(`thefuzz.process.extractOne`'s default `WRatio`) is an external library
function, abstracted as a deterministic `scorer` parameter — the spec
itself specifies resolution only up to "a deterministic underlying
similarity scorer". -/

/-- **C8.** For every scorer, external name list and non-empty reference
list: scoring an external name never errors (a best match always exists);
a canonical name is in the output exactly when it is the best match of
some external name with score at or above the threshold `90` — so
sub-threshold names are dropped silently; and the output holds each
canonical name at most once. -/
theorem fuzzy_resolution_spec (scorer : String → String → ℕ)
    (dkNames refNames : List String) (h : refNames ≠ []) :
    (∀ n ∈ dkNames, ∃ m s, extractOne scorer n refNames = some (m, s))
    ∧ (∀ m, m ∈ fuzzyResolve scorer dkNames refNames ↔
        ∃ n ∈ dkNames, ∃ s, extractOne scorer n refNames = some (m, s)
          ∧ fuzzThreshold ≤ s)
    ∧ (fuzzyResolve scorer dkNames refNames).Nodup := by
  refine ⟨?_, ?_, List.nodup_dedup _⟩
  · intro n _
    cases refNames with
    | nil => exact absurd rfl h
    | cons c cs => exact ⟨_, _, rfl⟩
  · intro m
    rw [fuzzyResolve, List.mem_dedup, List.mem_filterMap]
    constructor
    · rintro ⟨n, hn, hx⟩
      split at hx
      next => cases hx
      next mm ss heq =>
        split at hx
        next hs =>
          cases hx
          exact ⟨n, hn, ss, heq, hs⟩
        next => cases hx
    · rintro ⟨n, hn, s, he, hs⟩
      refine ⟨n, hn, ?_⟩
      rw [he]
      simp [hs]

/-- Witness for C8: against references `["AJ Green", "LeBron James"]`, the
external list `["A.J. Green", "A.J. Green", "Nobody"]` resolves — every
name scores without error, `"AJ Green"` is in the output through its
95-scoring match, the unrelated `"Nobody"` contributes nothing, and the
output is duplicate-free (evaluating to exactly `["AJ Green"]`). -/
theorem fuzzy_resolution_witness :
    (∃ m s, extractOne wScorer "A.J. Green" ["AJ Green", "LeBron James"] = some (m, s))
    ∧ ("AJ Green" ∈ fuzzyResolve wScorer ["A.J. Green", "A.J. Green", "Nobody"]
        ["AJ Green", "LeBron James"])
    ∧ ("LeBron James" ∉ fuzzyResolve wScorer ["A.J. Green", "A.J. Green", "Nobody"]
        ["AJ Green", "LeBron James"])
    ∧ (fuzzyResolve wScorer ["A.J. Green", "A.J. Green", "Nobody"]
        ["AJ Green", "LeBron James"]).Nodup
    ∧ fuzzyResolve wScorer ["A.J. Green", "A.J. Green", "Nobody"]
        ["AJ Green", "LeBron James"] = ["AJ Green"] := by
  obtain ⟨h1, h2, h3⟩ := fuzzy_resolution_spec wScorer
    ["A.J. Green", "A.J. Green", "Nobody"] ["AJ Green", "LeBron James"] (by decide)
  refine ⟨h1 "A.J. Green" (by decide), ?_, ?_, h3, by decide⟩
  · exact (h2 "AJ Green").mpr ⟨"A.J. Green", by decide, 95, by decide, by decide⟩
  · intro hmem
    obtain ⟨n, hn, s, he, hs⟩ := (h2 "LeBron James").mp hmem
    have : (n = "A.J. Green" ∨ n = "A.J. Green" ∨ n = "Nobody") := by
      simpa using hn
    rcases this with rfl | rfl | rfl <;>
      simp only [show extractOne wScorer "A.J. Green" ["AJ Green", "LeBron James"]
          = some ("AJ Green", 95) from by decide,
        show extractOne wScorer "Nobody" ["AJ Green", "LeBron James"]
          = some ("AJ Green", 0) from by decide] at he <;>
      exact absurd (Prod.mk.injEq .. ▸ (Option.some.injEq _ _ ▸ he)).1 (by decide)

/-- Witness for C7: the fail-fast characterization instantiated on a
concrete batch whose lexicographically second file holds a malformed date
— the run archives only the first file. -/
theorem ingestion_fail_fast_witness :
    ∃ n, n ≤ (sortFiles [⟨"b.xlsx", [⟨2, "Bob", "bad"⟩]⟩,
        ⟨"a.xlsx", [⟨1, "Alice", "2024-01-01"⟩]⟩]).length
      ∧ (runIngestion (fun s => if s = "bad" then none else some s)
            (IngState.mk [] [])
            [⟨"b.xlsx", [⟨2, "Bob", "bad"⟩]⟩,
             ⟨"a.xlsx", [⟨1, "Alice", "2024-01-01"⟩]⟩]).2.1
          = (((sortFiles [⟨"b.xlsx", [⟨2, "Bob", "bad"⟩]⟩,
              ⟨"a.xlsx", [⟨1, "Alice", "2024-01-01"⟩]⟩]).take n).map fun f => f.name)
      ∧ (runIngestion (fun s => if s = "bad" then none else some s)
            (IngState.mk [] [])
            [⟨"b.xlsx", [⟨2, "Bob", "bad"⟩]⟩,
             ⟨"a.xlsx", [⟨1, "Alice", "2024-01-01"⟩]⟩]).1
          = applyFiles (fun s => if s = "bad" then none else some s)
              (storeKeys (IngState.mk [] []).logs) (IngState.mk [] [])
              ((sortFiles [⟨"b.xlsx", [⟨2, "Bob", "bad"⟩]⟩,
                ⟨"a.xlsx", [⟨1, "Alice", "2024-01-01"⟩]⟩]).take n)
      ∧ ((runIngestion (fun s => if s = "bad" then none else some s)
            (IngState.mk [] [])
            [⟨"b.xlsx", [⟨2, "Bob", "bad"⟩]⟩,
             ⟨"a.xlsx", [⟨1, "Alice", "2024-01-01"⟩]⟩]).2.2 = none →
          n = (sortFiles [⟨"b.xlsx", [⟨2, "Bob", "bad"⟩]⟩,
            ⟨"a.xlsx", [⟨1, "Alice", "2024-01-01"⟩]⟩]).length)
      ∧ (∀ e, (runIngestion (fun s => if s = "bad" then none else some s)
            (IngState.mk [] [])
            [⟨"b.xlsx", [⟨2, "Bob", "bad"⟩]⟩,
             ⟨"a.xlsx", [⟨1, "Alice", "2024-01-01"⟩]⟩]).2.2 = some e →
          ∃ f rest, (sortFiles [⟨"b.xlsx", [⟨2, "Bob", "bad"⟩]⟩,
              ⟨"a.xlsx", [⟨1, "Alice", "2024-01-01"⟩]⟩]).drop n = f :: rest
            ∧ processFile (fun s => if s = "bad" then none else some s)
                (storeKeys (IngState.mk [] []).logs)
                (applyFiles (fun s => if s = "bad" then none else some s)
                  (storeKeys (IngState.mk [] []).logs) (IngState.mk [] [])
                  ((sortFiles [⟨"b.xlsx", [⟨2, "Bob", "bad"⟩]⟩,
                    ⟨"a.xlsx", [⟨1, "Alice", "2024-01-01"⟩]⟩]).take n)) f
              = .error e) :=
  ingestion_fail_fast (fun s => if s = "bad" then none else some s)
    (IngState.mk [] [])
    [⟨"b.xlsx", [⟨2, "Bob", "bad"⟩]⟩, ⟨"a.xlsx", [⟨1, "Alice", "2024-01-01"⟩]⟩]

end BigDataBall
